import Mathlib

/-!
Shallow embedding of `src/main.rs` of `ibooks-highlights-export`.

The program reads iBooks highlight rows from a SQLite database joined with a
library database, filters them by a persisted last-sync timestamp, renders
them, and (optionally) persists the maximum annotation timestamp as the new
sync marker.  Timestamps are modelled as `Int` seconds; the fractional
`REAL` column `ZFUTUREPROOFING6` is modelled as `ℚ`.  External effects
(directory scans, the sync-marker file, SQL execution) are modelled as
explicit inputs, and the run's observable actions as an event trace.
-/

/-- Source line 203-205: `Utc.timestamp(ts + 978307200, 0)`, i.e. a core-data
second count plus the fixed offset, read as Unix seconds. -/
def core_data_to_timestamp (ts : Int) : Int :=
  ts + 978307200

/-- Source line 207-209: `ts - 978307200`. -/
def timestamp_to_core_data (ts : Int) : Int :=
  ts - 978307200

/-- SQLite's `round(X)` with no digit argument on a REAL value: round to the
nearest integer, halves away from zero.  Computed on the numerator and
denominator so that it evaluates inside the kernel; `sqliteRound_eq` below
restates it as `⌊q + 1/2⌋` / `⌈q - 1/2⌉`. -/
def sqliteRound (q : ℚ) : Int :=
  if 0 ≤ q.num then (2 * q.num + (q.den : Int)) / (2 * (q.den : Int))
  else -((2 * -q.num + (q.den : Int)) / (2 * (q.den : Int)))

/-- A row of `ZAEANNOTATION` restricted to the columns the query touches.
`zfutureproofing6` is the fractional time-of-record column; `none` models a
database NULL. -/
structure AnnotationRow where
  zannotationselectedtext : Option String
  zannotationnote : Option String
  zfutureproofing6 : Option ℚ
  zannotationassetid : String
  deriving DecidableEq

/-- A row of `ZBKLIBRARYASSET` restricted to the columns the query touches. -/
structure LibraryRow where
  zassetid : String
  ztitle : String
  deriving DecidableEq

/-- Source lines 56-63: the in-memory record built from each result row.
`anotation_time` (spelling as in the source) is a Unix second count. -/
structure Annotation where
  selected_text : Option String
  note : Option String
  anotation_time : Int
  book_title : String
  deriving DecidableEq

/-- The `inner join ZBKLIBRARYASSET l ON l.ZASSETID = a.ZANNOTATIONASSETID`
of the query on lines 119-130: every annotation row paired with every
library row carrying the matching asset id. -/
def joinRows (annRows : List AnnotationRow) (libRows : List LibraryRow) :
    List ( AnnotationRow × LibraryRow) :=
  annRows.flatMap fun a =>
    (libRows.filter fun l => l.zassetid = a.zannotationassetid).map fun l => (a, l)

/-- The WHERE clause of lines 127-128 at a given threshold (in core-data
seconds): selected text non-NULL, note NULL or non-empty, and rounded
time-of-record strictly above the threshold.  A NULL `ZFUTUREPROOFING6`
fails the SQL comparison, hence the row is dropped. -/
def rowKept (threshold : Int) (r : AnnotationRow × LibraryRow) : Bool :=
  r.1.zannotationselectedtext.isSome &&
    (match r.1.zannotationnote with
      | none => true
      | some s => decide (¬ s = "")) &&
    (match r.1.zfutureproofing6 with
      | none => false
      | some q => decide (threshold < sqliteRound q))

/-- The `ORDER BY a.ZFUTUREPROOFING6` key (line 129); rows surviving the
filter always carry a value, so the NULL default is never reached there. -/
def rowLe (r s : AnnotationRow × LibraryRow) : Prop :=
  r.1.zfutureproofing6.getD 0 ≤ s.1.zfutureproofing6.getD 0

instance : DecidableRel rowLe := fun r s =>
  inferInstanceAs (Decidable (r.1.zfutureproofing6.getD 0 ≤ s.1.zfutureproofing6.getD 0))

instance : IsTotal ( AnnotationRow × LibraryRow) rowLe :=
  ⟨fun r s => le_total (r.1.zfutureproofing6.getD 0) (s.1.zfutureproofing6.getD 0)⟩

instance : IsTrans ( AnnotationRow × LibraryRow) rowLe :=
  ⟨fun _ _ _ h h' => le_trans h h'⟩

/-- The row-mapping closure of lines 132-140: project the columns into an
`Annotation`.  `row.get(2)` reads `round(ZFUTUREPROOFING6)` as a float and
`ts as i64` truncates it; the value is already integral, so this is exactly
`sqliteRound` of the raw column. -/
def decodeRow (r : AnnotationRow × LibraryRow) : Annotation :=
  { selected_text := r.1.zannotationselectedtext
    note := r.1.zannotationnote
    anotation_time := core_data_to_timestamp (sqliteRound (r.1.zfutureproofing6.getD 0))
    book_title := r.2.ztitle }

/-- Lines 131-132: `created_after.map(|t| t.timestamp()).unwrap_or(0)` fed
through `timestamp_to_core_data` — the single bound parameter of the query. -/
def queryThreshold (created_after : Option Int) : Int :=
  timestamp_to_core_data (created_after.getD 0)

/-- Lines 107-145: the joined, filtered, time-ordered, projected result of
the query, with the databases' relevant rows passed explicitly.  SQL leaves
the sorting algorithm unspecified; a stable sort by the raw time column is
used here. -/
def read_annotations (annRows : List AnnotationRow) (libRows : List LibraryRow)
    (created_after : Option Int) : List Annotation :=
  (List.insertionSort rowLe
    ((joinRows annRows libRows).filter (rowKept (queryThreshold created_after)))).map
    decodeRow

/-- The marker file as `LastSyncFile::read` observes it (lines 163-173):
either `Path::exists` reports no file, or reading it fails, or its bytes are
classified by what `String::from_utf8` / `DateTime::parse_from_rfc3339`
make of them.  A stored value is a Unix second count. -/
inductive SyncFileState where
  | absent
  | readFailure
  | invalidUtf8
  | invalidTimestamp
  | stored (t : Int)
  deriving DecidableEq

/-- The error paths of `LastSyncFile::read`: the `UnableToReadSyncFile`
context, the UTF-8 decoding error, and the RFC 3339 parse error. -/
inductive SyncError where
  | unableToReadSyncFile
  | invalidUtf8
  | invalidTimestamp
  deriving DecidableEq

namespace LastSyncFile

/-- Source lines 163-173: absent file yields `Ok(None)`; every other failure
propagates as an error; otherwise the parsed timestamp is returned. -/
def read (st : SyncFileState) : Except SyncError (Option Int) :=
  match st with
  | .absent => .ok none
  | .readFailure => .error .unableToReadSyncFile
  | .invalidUtf8 => .error .invalidUtf8
  | .invalidTimestamp => .error .invalidTimestamp
  | .stored t => .ok (some t)

end LastSyncFile

/-- One directory entry as `locate_database` observes it: the path and the
value of `path.extension().and_then(OsStr::to_str)`. -/
structure DirEntry where
  path : String
  extension : Option String
  deriving DecidableEq

/-- A scanned directory: `fs::read_dir` either fails (directory absent or
unreadable) or yields entries, each of which can itself fail (`file?`). -/
inductive DirState where
  | unreadable
  | entries (l : List (Option DirEntry))
  deriving DecidableEq

/-- The error values `main` can finish with, mirroring the `Errors` enum
plus the propagated I/O errors. -/
inductive MainError where
  | noHomeDir
  | noDbFound
  | ioError
  | unableToFindProgramLocation
  | syncRead (e : SyncError)
  | unableToWriteSyncFile
  deriving DecidableEq

/-- The loop of lines 192-199: first entry whose extension (defaulted to
the empty string) equals `sqlite` wins; a failing entry propagates its
error; an exhausted directory yields `Ok(None)`. -/
def firstSqliteFile : List (Option DirEntry) → Except MainError (Option String)
  | [] => .ok none
  | none :: _ => .error .ioError
  | some e :: rest =>
    if e.extension.getD "" = "sqlite" then .ok (some e.path) else firstSqliteFile rest

/-- Source lines 188-201: require a home directory, scan the container
directory, return the first `.sqlite` file if any.  A failing `read_dir`
(absent or unreadable directory) propagates an I/O error via `?`. -/
def locate_database (homeDir : Option String) (d : DirState) :
    Except MainError (Option String) :=
  match homeDir with
  | none => .error .noHomeDir
  | some _ =>
    match d with
    | .unreadable => .error .ioError
    | .entries l => firstSqliteFile l

/-- The command-line flags the orchestrator consumes (lines 15-33). -/
structure Args where
  update : Bool
  json : Bool
  table : Bool
  all : Bool
  deriving DecidableEq

/-- The external world of one run: home directory, the two container
directories, the state directory, the marker file, whether state-directory
creation or the marker write would fail, and the database contents. -/
structure Env where
  homeDir : Option String
  annotationDir : DirState
  libraryDir : DirState
  dataDir : Option String
  createDirFails : Bool
  syncFile : SyncFileState
  syncWriteFails : Bool
  annotationRows : List AnnotationRow
  libraryRows : List LibraryRow

/-- Source line 180-182 specialised to the annotation container. -/
def locate_annotation_database (env : Env) : Except MainError (Option String) :=
  locate_database env.homeDir env.annotationDir

/-- Source line 184-186 specialised to the library container. -/
def locate_library_database (env : Env) : Except MainError (Option String) :=
  locate_database env.homeDir env.libraryDir

/-- Function LastSyncFile::find (lines 150-161): needs a data directory and a
successful `create_dir_all`. -/
def lastSyncFileFind (env : Env) : Except MainError Unit :=
  match env.dataDir with
  | none => .error .unableToFindProgramLocation
  | some _ => if env.createDirFails then .error .ioError else .ok ()

/-- Lines 79-83: full-rescan mode skips the marker file entirely; otherwise
a marker-read failure propagates. -/
def effSince (args : Args) (st : SyncFileState) : Except MainError (Option Int) :=
  if args.all then .ok none
  else
    match LastSyncFile.read st with
    | .ok v => .ok v
    | .error e => .error (.syncRead e)

deriving instance DecidableEq for Except

/-- Rust Option::zip as used on line 70. -/
def optZip (a : Option α) (b : Option β) : Option (α × β) :=
  match a, b with
  | some x, some y => some (x, y)
  | _, _ => none

/-- The observable actions of a run, in order: executing the annotation
query, rendering to stdout, and writing the marker file. -/
inductive Event where
  | query
  | render
  | writeMarker (t : Int)
  deriving DecidableEq

/-- Source lines 65-105: locate both databases, resolve the marker store,
determine the effective since-timestamp, query, render, and (with `--update`
and a non-empty result) persist the maximum annotation time.  The result is
the trace of observable actions paired with the run's outcome. -/
def mainRun (args : Args) (env : Env) : List Event × Except MainError Unit :=
  match locate_annotation_database env with
  | .error e => ([], .error e)
  | .ok annDb =>
    match locate_library_database env with
    | .error e => ([], .error e)
    | .ok libDb =>
      match optZip annDb libDb with
      | none => ([], .error .noDbFound)
      | some _ =>
        match lastSyncFileFind env with
        | .error e => ([], .error e)
        | .ok _ =>
          match effSince args env.syncFile with
          | .error e => ([], .error e)
          | .ok last_sync =>
            let annotations :=
              read_annotations env.annotationRows env.libraryRows last_sync
            let new_last_sync_time := (annotations.map fun a => a.anotation_time).max?
            if args.update then
              match new_last_sync_time with
              | some t =>
                if env.syncWriteFails then
                  ([Event.query, Event.render, Event.writeMarker t],
                    .error .unableToWriteSyncFile)
                else
                  ([Event.query, Event.render, Event.writeMarker t], .ok ())
              | none => ([Event.query, Event.render], .ok ())
            else ([Event.query, Event.render], .ok ())

/-- One step of the grouping loop of lines 248-255:
`annotations_by_book.entry(a.book_title.clone()).or_insert_with(Vec::new).push(a)`.
The hash map is modelled as an association list in first-insertion order;
pushing appends to an existing group or adds a fresh singleton group. -/
def pushEntry (m : List (String × List Annotation)) (a : Annotation) :
    List (String × List Annotation) :=
  match m with
  | [] => [(a.book_title, [a])]
  | (k, v) :: rest =>
    if k = a.book_title then (k, v ++ [a]) :: rest else (k, v) :: pushEntry rest a

/-- The group-by-book step of the Logseq renderer (lines 248-255). -/
def group_by_book (anns : List Annotation) : List (String × List Annotation) :=
  anns.foldl pushEntry []

/-- The group stored under a book title, empty when the title has no group. -/
def lookupGroup (m : List (String × List Annotation)) (b : String) : List Annotation :=
  match m.find? fun e => decide (e.1 = b) with
  | some e => e.2
  | none => []

example :
    read_annotations [⟨some "txt", none, some 5, "a1"⟩] [⟨"a1", "Dune"⟩] none =
      [⟨some "txt", none, 978307205, "Dune"⟩] := by decide

example :
    read_annotations [⟨some "txt", none, some 0, "a1"⟩] [⟨"a1", "Dune"⟩] none =
      [⟨some "txt", none, 978307200, "Dune"⟩] := by decide

example :
    read_annotations [⟨some "txt", none, some 5, "a1"⟩] [⟨"a1", "Dune"⟩] (some 978307205) =
      [] := by decide

lemma floor_div_add_half (n : Int) (d : Nat) (hd : d ≠ 0) :
    ⌊((n : ℚ) / (d : ℚ)) + 1/2⌋ = (2 * n + (d : Int)) / (2 * (d : Int)) := by
  have h1 : ((n : ℚ) / (d : ℚ)) + 1/2 =
      (((2 * n + (d : Int) : Int) : ℚ)) / (((2 * d : Nat) : ℚ)) := by
    have hd' : (d : ℚ) ≠ 0 := Nat.cast_ne_zero.mpr hd
    field_simp
    ring
  rw [h1, Rat.floor_intCast_div_natCast]
  push_cast
  ring_nf

/-- The function sqliteRound agrees with rounding half away from zero stated through
the floor and ceiling functions. -/
lemma sqliteRound_eq (q : ℚ) :
    sqliteRound q = if 0 ≤ q then ⌊q + 1/2⌋ else ⌈q - 1/2⌉ := by
  have hq : ((q.num : ℚ) / (q.den : ℚ)) = q := Rat.num_div_den q
  have hd : q.den ≠ 0 := q.den_nz
  by_cases h : 0 ≤ q
  · rw [if_pos h, sqliteRound, if_pos (Rat.num_nonneg.mpr h)]
    rw [← floor_div_add_half q.num q.den hd, hq]
  · rw [if_neg h, sqliteRound, if_neg (fun hn => h (Rat.num_nonneg.mp hn))]
    have hc : ⌈q - 1/2⌉ = -⌊(-q) + 1/2⌋ := by
      rw [show (-q) + 1/2 = -(q - 1/2) by ring, Int.floor_neg, neg_neg]
    rw [hc]
    congr 1
    have hnq : ((-q.num : Int) : ℚ) / (q.den : ℚ) = -q := by
      push_cast
      rw [neg_div, hq]
    rw [← floor_div_add_half (-q.num) q.den hd, hnq]

/-- Rounding is monotone, so sorting by the raw `ZFUTUREPROOFING6` value also
sorts the rounded values. -/
lemma sqliteRound_mono {q1 q2 : ℚ} (h : q1 ≤ q2) : sqliteRound q1 ≤ sqliteRound q2 := by
  rw [sqliteRound_eq, sqliteRound_eq]
  by_cases h1 : 0 ≤ q1
  · rw [if_pos h1, if_pos (le_trans h1 h)]
    exact Int.floor_mono (by linarith)
  · rw [if_neg h1]
    by_cases h2 : 0 ≤ q2
    · rw [if_pos h2]
      have hA : ⌈q1 - 1/2⌉ ≤ 0 := Int.ceil_le.mpr (by push_cast; linarith [not_le.mp h1])
      have hB : (0 : Int) ≤ ⌊q2 + 1/2⌋ := Int.le_floor.mpr (by push_cast; linarith)
      omega
    · rw [if_neg h2]
      exact Int.ceil_mono (by linarith)

/-- Membership in the query result, unfolded down to the join and the WHERE
clause: the sort is a permutation and the projection is a map. -/
lemma mem_read_annotations {annRows : List AnnotationRow} {libRows : List LibraryRow}
    {created_after : Option Int} {a : Annotation} :
    a ∈ read_annotations annRows libRows created_after ↔
      ∃ p, p ∈ joinRows annRows libRows ∧
        rowKept (queryThreshold created_after) p = true ∧ decodeRow p = a := by
  unfold read_annotations
  rw [List.mem_map]
  constructor
  · rintro ⟨p, hp, rfl⟩
    rw [List.mem_insertionSort, List.mem_filter] at hp
    exact ⟨p, hp.1, hp.2, rfl⟩
  · rintro ⟨p, hp, hk, rfl⟩
    exact ⟨p, by rw [List.mem_insertionSort, List.mem_filter]; exact ⟨hp, hk⟩, rfl⟩

/-- The WHERE clause, decomposed into its three conjuncts. -/
lemma rowKept_iff {threshold : Int} {p : AnnotationRow × LibraryRow} :
    rowKept threshold p = true ↔
      p.1.zannotationselectedtext.isSome = true ∧
        (p.1.zannotationnote = none ∨ ∃ s, p.1.zannotationnote = some s ∧ ¬ s = "") ∧
        ∃ q, p.1.zfutureproofing6 = some q ∧ threshold < sqliteRound q := by
  unfold rowKept
  rcases hn : p.1.zannotationnote with _ | s <;>
    rcases hf : p.1.zfutureproofing6 with _ | q <;>
    simp [hn, hf, Bool.and_eq_true, decide_eq_true_eq, and_assoc]

/-- A nondecreasing integer list attains its maximum at its last element. -/
lemma max?_eq_getLast?_of_sorted :
    ∀ l : List Int, l.Sorted (· ≤ ·) → l.max? = l.getLast?
  | [], _ => rfl
  | a :: t, h => by
    induction t generalizing a with
    | nil => rfl
    | cons b t ih =>
      have hab : a ≤ b := (List.sorted_cons.mp h).1 b (List.mem_cons_self b t)
      have ht : (b :: t).Sorted (· ≤ ·) := (List.sorted_cons.mp h).2
      have h1 : (a :: b :: t).max? = (b :: t).max? := by
        rw [List.max?_cons', List.max?_cons', List.foldl_cons,
          max_eq_right hab]
      rw [h1, ih b ht]
      rfl

example :
    group_by_book [⟨some "x", none, 1, "A"⟩, ⟨some "y", none, 2, "B"⟩, ⟨some "z", none, 3, "A"⟩] =
      [("A", [⟨some "x", none, 1, "A"⟩, ⟨some "z", none, 3, "A"⟩]),
        ("B", [⟨some "y", none, 2, "B"⟩])] := by decide

lemma lookupGroup_cons (k : String) (v : List Annotation)
    (rest : List (String × List Annotation)) (b : String) :
    lookupGroup ((k, v) :: rest) b = if k = b then v else lookupGroup rest b := by
  by_cases h : k = b
  · rw [if_pos h]
    unfold lookupGroup
    rw [List.find?_cons_of_pos _ (by simpa using h)]
  · rw [if_neg h]
    unfold lookupGroup
    rw [List.find?_cons_of_neg _ (by simpa using h)]

lemma lookupGroup_pushEntry (m : List (String × List Annotation)) (a : Annotation)
    (b : String) :
    lookupGroup (pushEntry m a) b =
      if a.book_title = b then lookupGroup m b ++ [a] else lookupGroup m b := by
  induction m with
  | nil =>
    show lookupGroup [(a.book_title, [a])] b = _
    rw [lookupGroup_cons]
    by_cases hb : a.book_title = b
    · rw [if_pos hb, if_pos hb]
      rfl
    · rw [if_neg hb, if_neg hb]
  | cons e rest ih =>
    obtain ⟨k, v⟩ := e
    by_cases hk : k = a.book_title
    · rw [show pushEntry ((k, v) :: rest) a = (k, v ++ [a]) :: rest from by
        simp [pushEntry, hk]]
      rw [lookupGroup_cons, lookupGroup_cons]
      by_cases hb : k = b
      · rw [if_pos hb, if_pos hb, if_pos (hk ▸ hb)]
      · rw [if_neg hb, if_neg hb, if_neg (fun h => hb (hk.trans h))]
    · rw [show pushEntry ((k, v) :: rest) a = (k, v) :: pushEntry rest a from by
        simp [pushEntry, hk]]
      rw [lookupGroup_cons, lookupGroup_cons]
      by_cases hb : k = b
      · rw [if_pos hb, if_pos hb, if_neg (fun h => hk (hb.trans h.symm))]
      · rw [if_neg hb, if_neg hb, ih]

/-- The keys of the grouping after one push: unchanged when the title is
already present, extended by it otherwise. -/
lemma keys_pushEntry (m : List (String × List Annotation)) (a : Annotation) :
    (pushEntry m a).map Prod.fst =
      if a.book_title ∈ m.map Prod.fst then m.map Prod.fst
      else m.map Prod.fst ++ [a.book_title] := by
  induction m with
  | nil => simp [pushEntry]
  | cons e rest ih =>
    obtain ⟨k, v⟩ := e
    by_cases hk : k = a.book_title
    · subst hk
      simp [pushEntry]
    · simp only [pushEntry, if_neg hk, List.map_cons, ih]
      have hm : (a.book_title ∈ k :: rest.map Prod.fst) ↔
          a.book_title ∈ rest.map Prod.fst := by
        constructor
        · intro h
          rcases List.mem_cons.mp h with h1 | h1
          · exact absurd h1.symm hk
          · exact h1
        · exact fun h => List.mem_cons_of_mem _ h
      by_cases hmem : a.book_title ∈ rest.map Prod.fst
      · rw [if_pos hmem, if_pos (hm.mpr hmem)]
      · rw [if_neg hmem, if_neg (fun h => hmem (hm.mp h))]
        simp

lemma nodup_keys_pushEntry (m : List (String × List Annotation)) (a : Annotation)
    (h : (m.map Prod.fst).Nodup) : ((pushEntry m a).map Prod.fst).Nodup := by
  rw [keys_pushEntry]
  by_cases hmem : a.book_title ∈ m.map Prod.fst
  · rwa [if_pos hmem]
  · rw [if_neg hmem]
    rw [List.nodup_append]
    refine ⟨h, List.nodup_singleton _, ?_⟩
    intro x hx hx'
    rw [List.mem_singleton] at hx'
    exact hmem (hx' ▸ hx)

example :
    mainRun ⟨true, false, false, false⟩
      ⟨some "h", DirState.entries [some ⟨"a.sqlite", some "sqlite"⟩],
        DirState.entries [some ⟨"b.sqlite", some "sqlite"⟩], some "d", false,
        SyncFileState.absent, false,
        [⟨some "txt", none, some 5, "a1"⟩], [⟨"a1", "Dune"⟩]⟩ =
      ([Event.query, Event.render, Event.writeMarker 978307205], .ok ()) := by decide

/-- Claim C3: converting a core-data second count to a Unix timestamp and
back yields the original value: the epoch converters are mutually inverse. -/
theorem epoch_round_trip (x : Int) :
    timestamp_to_core_data (core_data_to_timestamp x) = x := by
  unfold timestamp_to_core_data core_data_to_timestamp
  omega

/-- Claim C1, counterexample: with `since` absent the query threshold is not
`0` in source-epoch units — a row whose rounded source timestamp is `0`
(which does not strictly exceed `0`) is still returned, because the bound
parameter is `timestamp_to_core_data 0 = -978307200`. -/
theorem allTime_keeps_epoch_row_cex :
    read_annotations [⟨some "txt", none, some 0, "a1"⟩] [⟨"a1", "Dune"⟩] none =
      [⟨some "txt", none, 978307200, "Dune"⟩] ∧
    ¬ sqliteRound 0 > 0 ∧
    ¬ queryThreshold none = 0 := by
  exact ⟨by decide, by decide, by decide⟩

/-- Claim C1, amended: with `since` absent the threshold passed to the
database is `timestamp_to_core_data 0 = -978307200` (the Unix epoch in
source-epoch units), and the filter keeps exactly the joined rows passing
the WHERE clause at that threshold — i.e. rounded source timestamp strictly
above `-978307200`, not above `0`. -/
theorem allTime_threshold_is_unix_epoch (annRows : List AnnotationRow)
    (libRows : List LibraryRow) (a : Annotation) :
    queryThreshold none = timestamp_to_core_data 0 ∧
    queryThreshold none = -978307200 ∧
    (a ∈ read_annotations annRows libRows none ↔
      ∃ p, p ∈ joinRows annRows libRows ∧ rowKept (-978307200) p = true ∧
        decodeRow p = a) := by
  refine ⟨rfl, by decide, ?_⟩
  have h : queryThreshold none = -978307200 := by decide
  rw [mem_read_annotations, h]

/-- Claim C4: every returned annotation carries selected text, a note that
is absent or non-empty, and — when `since` is given — a timestamp strictly
above the `since` threshold. -/
theorem read_annotations_row_invariants (annRows : List AnnotationRow)
    (libRows : List LibraryRow) (since : Option Int) (a : Annotation)
    (ha : a ∈ read_annotations annRows libRows since) :
    a.selected_text.isSome = true ∧
    (a.note = none ∨ ∃ s, a.note = some s ∧ ¬ s = "") ∧
    (∀ t, since = some t → t < a.anotation_time) := by
  rw [mem_read_annotations] at ha
  obtain ⟨p, hmem, hk, rfl⟩ := ha
  rw [rowKept_iff] at hk
  obtain ⟨h1, h2, q, hq, hlt⟩ := hk
  refine ⟨h1, h2, ?_⟩
  intro t ht
  subst ht
  rw [show queryThreshold (some t) = t - 978307200 from rfl] at hlt
  show t < core_data_to_timestamp (sqliteRound (p.1.zfutureproofing6.getD 0))
  rw [hq]
  rw [show (Option.getD (some q) 0) = q from rfl]
  unfold core_data_to_timestamp
  omega

theorem read_annotations_row_invariants_witness :
    (⟨some "txt", some "good", 978307205, "Dune"⟩ : Annotation).selected_text.isSome = true ∧
    ((⟨some "txt", some "good", 978307205, "Dune"⟩ : Annotation).note = none ∨
      ∃ s, (⟨some "txt", some "good", 978307205, "Dune"⟩ : Annotation).note = some s ∧
        ¬ s = "") ∧
    (0 : Int) < (⟨some "txt", some "good", 978307205, "Dune"⟩ : Annotation).anotation_time := by
  have h := read_annotations_row_invariants
    [⟨some "txt", some "good", some 5, "a1"⟩] [⟨"a1", "Dune"⟩] (some 0)
    ⟨some "txt", some "good", 978307205, "Dune"⟩ (by decide)
  exact ⟨h.1, h.2.1, h.2.2 0 rfl⟩

/-- Claim C9: raising the `since` threshold only shrinks the result set —
every annotation returned for the larger threshold `t2` is returned for the
smaller threshold `t1` as well. -/
theorem threshold_filter_monotone (annRows : List AnnotationRow)
    (libRows : List LibraryRow) (t1 t2 : Int) (a : Annotation)
    (h12 : t1 < t2) (ha : a ∈ read_annotations annRows libRows (some t2)) :
    a ∈ read_annotations annRows libRows (some t1) := by
  rw [mem_read_annotations] at ha ⊢
  obtain ⟨p, hmem, hk, rfl⟩ := ha
  refine ⟨p, hmem, ?_, rfl⟩
  rw [rowKept_iff] at hk ⊢
  obtain ⟨h1, h2, q, hq, hlt⟩ := hk
  refine ⟨h1, h2, q, hq, ?_⟩
  rw [show queryThreshold (some t2) = t2 - 978307200 from rfl] at hlt
  rw [show queryThreshold (some t1) = t1 - 978307200 from rfl]
  omega

theorem threshold_filter_monotone_witness :
    (⟨some "txt", none, 978307205, "Dune"⟩ : Annotation) ∈
      read_annotations [⟨some "txt", none, some 5, "a1"⟩] [⟨"a1", "Dune"⟩] (some 0) :=
  threshold_filter_monotone [⟨some "txt", none, some 5, "a1"⟩] [⟨"a1", "Dune"⟩]
    0 1 ⟨some "txt", none, 978307205, "Dune"⟩ (by decide) (by decide)

/-- Claim C5: the result sequence is ordered ascending by the timestamp used
for filtering, and for a non-empty result the maximum `anotation_time`
equals the last row's `anotation_time`. -/
theorem result_ordered_max_eq_last (annRows : List AnnotationRow)
    (libRows : List LibraryRow) (since : Option Int) :
    ((read_annotations annRows libRows since).map fun a => a.anotation_time).Sorted
      (· ≤ ·) ∧
    (read_annotations annRows libRows since ≠ [] →
      ((read_annotations annRows libRows since).map fun a => a.anotation_time).max? =
        ((read_annotations annRows libRows since).map fun a => a.anotation_time).getLast?) := by
  have hsorted :
      ((read_annotations annRows libRows since).map fun a => a.anotation_time).Sorted
        (· ≤ ·) := by
    unfold read_annotations
    rw [List.map_map]
    refine List.Pairwise.map _ ?_ (List.sorted_insertionSort rowLe _)
    intro p q hpq
    show core_data_to_timestamp (sqliteRound (p.1.zfutureproofing6.getD 0)) ≤
      core_data_to_timestamp (sqliteRound (q.1.zfutureproofing6.getD 0))
    unfold core_data_to_timestamp
    exact add_le_add_right (sqliteRound_mono hpq) _
  exact ⟨hsorted, fun _ => max?_eq_getLast?_of_sorted _ hsorted⟩

theorem result_ordered_max_eq_last_witness :
    ((read_annotations [⟨some "txt", none, some 5, "a1"⟩] [⟨"a1", "Dune"⟩] none).map
        fun a => a.anotation_time).max? =
      ((read_annotations [⟨some "txt", none, some 5, "a1"⟩] [⟨"a1", "Dune"⟩] none).map
        fun a => a.anotation_time).getLast? :=
  (result_ordered_max_eq_last [⟨some "txt", none, some 5, "a1"⟩] [⟨"a1", "Dune"⟩]
    none).2 (by decide)

lemma lookupGroup_foldl (b : String) :
    ∀ (l : List Annotation) (m : List (String × List Annotation)),
      lookupGroup (l.foldl pushEntry m) b =
        lookupGroup m b ++ l.filter fun x => decide (x.book_title = b)
  | [], m => by simp
  | a :: t, m => by
    rw [List.foldl_cons, lookupGroup_foldl b t, lookupGroup_pushEntry, List.filter_cons]
    by_cases hb : a.book_title = b
    · rw [if_pos hb, if_pos (by simpa using hb)]
      simp
    · rw [if_neg hb, if_neg (by simpa using hb)]

lemma nodup_keys_foldl :
    ∀ (l : List Annotation) (m : List (String × List Annotation)),
      (m.map Prod.fst).Nodup → ((l.foldl pushEntry m).map Prod.fst).Nodup
  | [], _, h => h
  | a :: t, m, h => by
    rw [List.foldl_cons]
    exact nodup_keys_foldl t (pushEntry m a) (nodup_keys_pushEntry m a h)

/-- Claim C8: the group-by-book step puts each annotation into the group of
its own book title (each title has exactly one group), and each group lists
exactly the input's annotations with that title, in input order. -/
theorem grouping_complete_ordered (anns : List Annotation) (b : String) :
    lookupGroup (group_by_book anns) b =
      (anns.filter fun x => decide (x.book_title = b)) ∧
    ((group_by_book anns).map Prod.fst).Nodup := by
  constructor
  · rw [group_by_book, lookupGroup_foldl]
    rfl
  · exact nodup_keys_foldl anns [] (by simp)

lemma firstSqliteFile_eq_ok_none_iff (l : List (Option DirEntry)) :
    firstSqliteFile l = .ok none ↔
      ∀ x ∈ l, ∃ d, x = some d ∧ ¬ d.extension.getD "" = "sqlite" := by
  induction l with
  | nil => simp [firstSqliteFile]
  | cons x rest ih =>
    match x with
    | none =>
      simp only [firstSqliteFile, List.mem_cons]
      constructor
      · intro h
        exact absurd h (by intro hh; cases hh)
      · intro h
        obtain ⟨d, hd, _⟩ := h none (Or.inl rfl)
        cases hd
    | some e =>
      by_cases hext : e.extension.getD "" = "sqlite"
      · rw [show firstSqliteFile (some e :: rest) = .ok (some e.path) from by
          simp [firstSqliteFile, hext]]
        constructor
        · intro h
          simp at h
        · intro h
          obtain ⟨d, hd, hnd⟩ := h (some e) (List.mem_cons_self _ _)
          cases Option.some.inj hd
          exact absurd hext hnd
      · rw [show firstSqliteFile (some e :: rest) = firstSqliteFile rest from by
          simp [firstSqliteFile, hext]]
        rw [ih]
        constructor
        · intro h x hx
          rcases List.mem_cons.mp hx with h1 | h1
          · exact ⟨e, h1 ▸ rfl, hext⟩
          · exact h x h1
        · intro h x hx
          exact h x (List.mem_cons_of_mem _ hx)

lemma firstSqliteFile_append_found (l : List (Option DirEntry)) (d : DirEntry)
    (l2 : List (Option DirEntry))
    (hall : ∀ x ∈ l, ∃ d0, x = some d0 ∧ ¬ d0.extension.getD "" = "sqlite")
    (hd : d.extension.getD "" = "sqlite") :
    firstSqliteFile (l ++ some d :: l2) = .ok (some d.path) := by
  induction l with
  | nil => simp [firstSqliteFile, hd]
  | cons x rest ih =>
    obtain ⟨d0, rfl, h0⟩ := hall x (List.mem_cons_self _ _)
    rw [List.cons_append]
    rw [show firstSqliteFile (some d0 :: (rest ++ some d :: l2)) =
        firstSqliteFile (rest ++ some d :: l2) from by simp [firstSqliteFile, h0]]
    exact ih fun x hx => hall x (List.mem_cons_of_mem _ hx)

/-- Claim C7, counterexample: for an absent or unreadable container
directory, `locate_database` propagates an I/O error instead of returning
the "not found" result (`Ok(None)`), so the run aborts with that I/O error
and not with the database-not-found condition. -/
theorem locate_database_unreadable_cex :
    locate_database (some "home") DirState.unreadable = .error MainError.ioError ∧
    ¬ locate_database (some "home") DirState.unreadable = .ok none :=
  ⟨rfl, fun h => Except.noConfusion h⟩

/-- Claim C7, amended: `locate_database` returns "not found" exactly when
the directory is readable, every entry enumerates successfully and none has
the `sqlite` extension; it returns the first matching file's path when the
entries before it are readable non-matches; an absent or unreadable
directory propagates an I/O error (and a missing home directory its own
error) rather than the "not found" result. -/
theorem locate_database_contract (h : String) (l : List (Option DirEntry)) :
    locate_database (some h) DirState.unreadable = .error MainError.ioError ∧
    locate_database none (DirState.entries l) = .error MainError.noHomeDir ∧
    (locate_database (some h) (DirState.entries l) = .ok none ↔
      ∀ x ∈ l, ∃ d, x = some d ∧ ¬ d.extension.getD "" = "sqlite") ∧
    (∀ (d : DirEntry) (l2 : List (Option DirEntry)),
      (∀ x ∈ l, ∃ d0, x = some d0 ∧ ¬ d0.extension.getD "" = "sqlite") →
      d.extension.getD "" = "sqlite" →
      locate_database (some h) (DirState.entries (l ++ some d :: l2)) =
        .ok (some d.path)) := by
  refine ⟨rfl, rfl, ?_, ?_⟩
  · exact firstSqliteFile_eq_ok_none_iff l
  · intro d l2 hall hd
    exact firstSqliteFile_append_found l d l2 hall hd

theorem locate_database_contract_witness :
    locate_database (some "home")
      (DirState.entries ([some ⟨"a.txt", some "txt"⟩] ++
        some (⟨"db.sqlite", some "sqlite"⟩ : DirEntry) :: [])) =
      .ok (some "db.sqlite") :=
  (locate_database_contract "home" [some ⟨"a.txt", some "txt"⟩]).2.2.2
    ⟨"db.sqlite", some "sqlite"⟩ []
    (fun x hx => by
      rw [List.mem_singleton] at hx
      exact ⟨⟨"a.txt", some "txt"⟩, by rw [hx], by decide⟩)
    (by decide)

/-- Claim C2: on a successful run, with `--update` and a non-empty result
set the marker file is written exactly once, after rendering, with the
maximum `anotation_time` of the result set; with an empty result set or
without `--update` it is not written at all. -/
theorem marker_written_once_with_max (args : Args) (env : Env) (s : Option Int)
    (hs : effSince args env.syncFile = .ok s)
    (hok : (mainRun args env).2 = .ok ()) :
    (args.update = true →
      read_annotations env.annotationRows env.libraryRows s ≠ [] →
      ∃ m, ((read_annotations env.annotationRows env.libraryRows s).map
          fun a => a.anotation_time).max? = some m ∧
        (mainRun args env).1 = [Event.query, Event.render, Event.writeMarker m]) ∧
    ((args.update = false ∨
        read_annotations env.annotationRows env.libraryRows s = []) →
      (mainRun args env).1 = [Event.query, Event.render]) := by
  rcases h1 : locate_annotation_database env with e1 | annDb
  · simp [mainRun, h1] at hok
  rcases h2 : locate_library_database env with e2 | libDb
  · simp [mainRun, h1, h2] at hok
  rcases h3 : optZip annDb libDb with _ | pr
  · simp [mainRun, h1, h2, h3] at hok
  rcases h4 : lastSyncFileFind env with e4 | u
  · simp [mainRun, h1, h2, h3, h4] at hok
  cases hu : args.update with
  | false =>
    refine ⟨fun habs _ => absurd habs (by simp), fun _ => ?_⟩
    simp [mainRun, h1, h2, h3, h4, hs, hu]
  | true =>
    rcases hm : ((read_annotations env.annotationRows env.libraryRows s).map
        fun a => a.anotation_time).max? with _ | m
    · have hnil : read_annotations env.annotationRows env.libraryRows s = [] := by
        have := List.max?_eq_none_iff.mp hm
        exact List.map_eq_nil_iff.mp this
      refine ⟨fun _ hne => absurd hnil hne, fun _ => ?_⟩
      simp [mainRun, h1, h2, h3, h4, hs, hu, hm]
    · cases hw : env.syncWriteFails with
      | true => simp [mainRun, h1, h2, h3, h4, hs, hu, hm, hw] at hok
      | false =>
        refine ⟨fun _ _ => ⟨m, hm, ?_⟩, fun hemp => ?_⟩
        · simp [mainRun, h1, h2, h3, h4, hs, hu, hm, hw]
        · rcases hemp with hfalse | hnil
          · exact absurd hfalse (by simp)
          · rw [hnil] at hm
            simp at hm

theorem marker_written_once_with_max_witness :
    (mainRun ⟨true, false, false, false⟩
      ⟨some "h", DirState.entries [some ⟨"a.sqlite", some "sqlite"⟩],
        DirState.entries [some ⟨"b.sqlite", some "sqlite"⟩], some "d", false,
        SyncFileState.absent, false,
        [⟨some "txt", none, some 5, "a1"⟩], [⟨"a1", "Dune"⟩]⟩).1 =
      [Event.query, Event.render, Event.writeMarker 978307205] := by
  obtain ⟨m, hm, ht⟩ :=
    (marker_written_once_with_max ⟨true, false, false, false⟩
      ⟨some "h", DirState.entries [some ⟨"a.sqlite", some "sqlite"⟩],
        DirState.entries [some ⟨"b.sqlite", some "sqlite"⟩], some "d", false,
        SyncFileState.absent, false,
        [⟨some "txt", none, some 5, "a1"⟩], [⟨"a1", "Dune"⟩]⟩ none rfl
      (by decide)).1 rfl (by decide)
  have hval : ((read_annotations [⟨some "txt", none, some 5, "a1"⟩]
      [⟨"a1", "Dune"⟩] none).map fun a => a.anotation_time).max? =
      some 978307205 := by decide
  rw [hval] at hm
  cases hm
  exact ht

/-- Claim C6: `LastSyncFile::read` returns "no marker" exactly when the file
does not exist; an unreadable file, non-UTF-8 bytes, or an invalid RFC 3339
timestamp each surface as an error, and when the run is not in full-rescan
mode such a read failure aborts it before the annotation query executes. -/
theorem sync_read_error_aborts (args : Args) (env : Env) (e : SyncError)
    (hall : args.all = false)
    (hread : LastSyncFile.read env.syncFile = .error e) :
    (∀ st, LastSyncFile.read st = .ok none ↔ st = SyncFileState.absent) ∧
    LastSyncFile.read SyncFileState.readFailure =
      .error SyncError.unableToReadSyncFile ∧
    LastSyncFile.read SyncFileState.invalidUtf8 = .error SyncError.invalidUtf8 ∧
    LastSyncFile.read SyncFileState.invalidTimestamp =
      .error SyncError.invalidTimestamp ∧
    Event.query ∉ (mainRun args env).1 ∧
    ∃ e', (mainRun args env).2 = .error e' := by
  have habs : ∀ st, LastSyncFile.read st = .ok none ↔ st = SyncFileState.absent := by
    intro st
    cases st <;> simp [LastSyncFile.read]
  have heff : effSince args env.syncFile = .error (.syncRead e) := by
    simp [effSince, hall, hread]
  have hmain : (mainRun args env).1 = [] ∧ ∃ e', (mainRun args env).2 = .error e' := by
    rcases h1 : locate_annotation_database env with e1 | annDb
    · simp [mainRun, h1]
    rcases h2 : locate_library_database env with e2 | libDb
    · simp [mainRun, h1, h2]
    rcases h3 : optZip annDb libDb with _ | pr
    · simp [mainRun, h1, h2, h3]
    rcases h4 : lastSyncFileFind env with e4 | u
    · simp [mainRun, h1, h2, h3, h4]
    simp [mainRun, h1, h2, h3, h4, heff]
  refine ⟨habs, rfl, rfl, rfl, ?_, hmain.2⟩
  rw [hmain.1]
  simp

theorem sync_read_error_aborts_witness :
    Event.query ∉ (mainRun ⟨false, false, false, false⟩
      ⟨some "h", DirState.entries [some ⟨"a.sqlite", some "sqlite"⟩],
        DirState.entries [some ⟨"b.sqlite", some "sqlite"⟩], some "d", false,
        SyncFileState.readFailure, false, [], []⟩).1 :=
  (sync_read_error_aborts ⟨false, false, false, false⟩
    ⟨some "h", DirState.entries [some ⟨"a.sqlite", some "sqlite"⟩],
      DirState.entries [some ⟨"b.sqlite", some "sqlite"⟩], some "d", false,
      SyncFileState.readFailure, false, [], []⟩
    SyncError.unableToReadSyncFile rfl rfl).2.2.2.2.1

/-- Claim C10: in full-rescan mode the run never consults the marker file —
its outcome and trace are identical for every marker-file state — so it
succeeds even when the marker file is unreadable or malformed, whenever the
same run with an absent marker file succeeds. -/
theorem rescan_ignores_marker_file (args : Args) (env : Env) (st : SyncFileState)
    (hall : args.all = true) :
    mainRun args env = mainRun args { env with syncFile := st } ∧
    ((mainRun args { env with syncFile := SyncFileState.absent }).2 = .ok () →
      (mainRun args env).2 = .ok ()) := by
  have key : ∀ st1 st2 : SyncFileState,
      mainRun args { env with syncFile := st1 } =
        mainRun args { env with syncFile := st2 } := by
    intro st1 st2
    simp [mainRun, locate_annotation_database, locate_library_database,
      lastSyncFileFind, effSince, hall]
  constructor
  · exact key env.syncFile st
  · intro h
    rw [show mainRun args env = mainRun args { env with syncFile := SyncFileState.absent }
      from key env.syncFile SyncFileState.absent]
    exact h

theorem rescan_ignores_marker_file_witness :
    mainRun ⟨true, false, false, true⟩
      ⟨some "h", DirState.entries [some ⟨"a.sqlite", some "sqlite"⟩],
        DirState.entries [some ⟨"b.sqlite", some "sqlite"⟩], some "d", false,
        SyncFileState.invalidTimestamp, false,
        [⟨some "txt", none, some 5, "a1"⟩], [⟨"a1", "Dune"⟩]⟩ =
      mainRun ⟨true, false, false, true⟩
        { (⟨some "h", DirState.entries [some ⟨"a.sqlite", some "sqlite"⟩],
            DirState.entries [some ⟨"b.sqlite", some "sqlite"⟩], some "d", false,
            SyncFileState.invalidTimestamp, false,
            [⟨some "txt", none, some 5, "a1"⟩], [⟨"a1", "Dune"⟩]⟩ : Env) with
          syncFile := SyncFileState.absent } :=
  (rescan_ignores_marker_file ⟨true, false, false, true⟩
    ⟨some "h", DirState.entries [some ⟨"a.sqlite", some "sqlite"⟩],
      DirState.entries [some ⟨"b.sqlite", some "sqlite"⟩], some "d", false,
      SyncFileState.invalidTimestamp, false,
      [⟨some "txt", none, some 5, "a1"⟩], [⟨"a1", "Dune"⟩]⟩
    SyncFileState.absent rfl).1

